import Mathlib

/-!  Shallow embedding of the schema-driven XMP merge/extraction engine of
Python-XMP-Metadata-Tool (src/schemas.py, src/xmp_functions.py).

The external libxmp packet is modelled through the Packet Accessor capability
interface that the code consumes (does_property_exist, get_property,
set_property, delete_property, count_array_items, get_array_item,
append_array_item, get_localized_text, set_localized_text): a packet is an
association list from (namespace URI, property name) to a property value that
is either a simple string, an array of item strings, or an alt-text array of
(language, value) alternatives.  -/

namespace XMPTool

/-- Property value forms, from schemas.py VALUE_FORMS / SCHEMA: simple,
ordered, unordered, alternative.  The array options passed to
append_array_item merely flag an array as ordered or unordered and do not
change merge behaviour, so they are not modelled further. -/
inductive ValueForm where
  | simple
  | ordered
  | unordered
  | alternative
deriving DecidableEq, Repr

/-- A stored XMP property: a simple string, an array of item strings, or an
alt-text array of (specific language, value) alternatives. -/
inductive PropVal where
  | simple (s : String)
  | arr (items : List String)
  | alt (items : List (String × String))
deriving DecidableEq, Repr

/-- The XMP packet: an association list from (namespace URI, property name)
to a property value. -/
abbrev Packet := List (String × String × PropVal)

/-- Look up the property stored under (ns, prop). -/
def lookupProp (p : Packet) (ns prop : String) : Option PropVal :=
  (p.find? (fun e => e.1 == ns && e.2.1 == prop)).map (fun e => e.2.2)

/-- XMPMeta.does_property_exist. -/
def doesPropertyExist (p : Packet) (ns prop : String) : Bool :=
  (lookupProp p ns prop).isSome

/-- Store a value under (ns, prop), replacing an existing entry in place or
adding a new entry at the end. -/
def setEntry (p : Packet) (ns prop : String) (v : PropVal) : Packet :=
  match p with
  | [] => [(ns, prop, v)]
  | e :: rest =>
    if e.1 == ns && e.2.1 == prop then (ns, prop, v) :: rest
    else e :: setEntry rest ns prop v

/-- XMPMeta.delete_property. -/
def deleteProperty (p : Packet) (ns prop : String) : Packet :=
  p.filter (fun e => !(e.1 == ns && e.2.1 == prop))

/-- XMPMeta.get_property (the code only reads simple properties with it). -/
def getProperty (p : Packet) (ns prop : String) : String :=
  match lookupProp p ns prop with
  | some (PropVal.simple s) => s
  | _ => ""

/-- XMPMeta.set_property as used by the code: stores a simple string. -/
def setProperty (p : Packet) (ns prop v : String) : Packet :=
  setEntry p ns prop (PropVal.simple v)

/-- The items of the array stored under (ns, prop), or [] if none. -/
def getArr (p : Packet) (ns prop : String) : List String :=
  match lookupProp p ns prop with
  | some (PropVal.arr items) => items
  | _ => []

/-- XMPMeta.count_array_items. -/
def countArrayItems (p : Packet) (ns prop : String) : Nat :=
  (getArr p ns prop).length

/-- XMPMeta.get_array_item with a 1-based index. -/
def getArrayItem (p : Packet) (ns prop : String) (index : Nat) : String :=
  (getArr p ns prop).getD (index - 1) ""

/-- XMPMeta.append_array_item: appends one item at the end of the array,
creating the array on first use. -/
def appendArrayItem (p : Packet) (ns prop item : String) : Packet :=
  setEntry p ns prop (PropVal.arr (getArr p ns prop ++ [item]))

/-- Python str.strip(chars): drops characters of the set from both ends. -/
def stripChars (s : String) (cs : List Char) : String :=
  String.mk (((s.toList.dropWhile (fun c => c ∈ cs)).reverse.dropWhile
    (fun c => c ∈ cs)).reverse)

/-- Helper for pySplit: walks the characters, cutting at the separator. -/
def pySplitAux (c : Char) : List Char → List Char → List String
  | [], acc => [String.mk acc.reverse]
  | x :: xs, acc =>
    if x = c then String.mk acc.reverse :: pySplitAux c xs []
    else pySplitAux c xs (x :: acc)

/-- Python str.split(sep) for a one-character separator (the code only splits
on ":", "," and "_"): "".split(sep) is [""], separators at the ends produce
empty pieces.  Defined by structural recursion on the characters so that
concrete instances evaluate inside the kernel. -/
def pySplit (s : String) (c : Char) : List String :=
  pySplitAux c s.toList []

/-- Whether p is a prefix of s, decided on the character lists. -/
def strPre (p s : String) : Bool :=
  p.toList.isPrefixOf s.toList

/-- The alternatives of the alt-text property stored under (ns, prop). -/
def getAltItems (p : Packet) (ns prop : String) : List (String × String) :=
  match lookupProp p ns prop with
  | some (PropVal.alt items) => items
  | _ => []

/-- Language-alternative selection of XMPMeta.get_localized_text: first an
exact match with the specific language, then an item whose language is the
generic language or an extension of it, then the "x-default" item, then the
first item. -/
def chooseLocalized (items : List (String × String)) (gen spec : String) : String :=
  match items.find? (fun it => it.1 == spec) with
  | some it => it.2
  | none =>
    match items.find? (fun it => it.1 == gen || strPre (gen ++ "-") it.1) with
    | some it => it.2
    | none =>
      match items.find? (fun it => it.1 == "x-default") with
      | some it => it.2
      | none => (items.headD ("", "")).2

/-- XMPMeta.get_localized_text. -/
def getLocalizedText (p : Packet) (ns prop gen spec : String) : String :=
  chooseLocalized (getAltItems p ns prop) gen spec

/-- XMPMeta.set_localized_text for the only call pattern in this repository
(specific language "x-default"): updates the item with the specific language
if present, otherwise inserts it in front; other alternatives are unchanged. -/
def setLocalizedText (p : Packet) (ns prop _gen spec v : String) : Packet :=
  let items := getAltItems p ns prop
  let items2 :=
    if items.any (fun it => it.1 == spec)
    then items.map (fun it => if it.1 == spec then (it.1, v) else it)
    else (spec, v) :: items
  setEntry p ns prop (PropVal.alt items2)

/-- SCHEMA from schemas.py: xmp prefix to (property name, value form) pairs,
in source order. -/
def SCHEMA : List (String × List (String × ValueForm)) :=
  [("xmp", [("CreateDate", ValueForm.simple), ("CreatorTool", ValueForm.simple),
            ("Label", ValueForm.simple), ("Rating", ValueForm.simple)]),
   ("photoshop", [("AuthorsPosition", ValueForm.simple),
                  ("Instructions", ValueForm.simple)]),
   ("dc", [("creator", ValueForm.ordered), ("subject", ValueForm.unordered),
           ("description", ValueForm.alternative), ("title", ValueForm.alternative)]),
   ("Iptc4xmpExt", [("PersonInImage", ValueForm.unordered)]),
   ("tiff", [("ImageWidth", ValueForm.simple), ("ImageLength", ValueForm.simple),
             ("Make", ValueForm.simple), ("Model", ValueForm.simple)]),
   ("exifEX", [("LensModel", ValueForm.simple)])]

/-- The check `prefix in SCHEMA and prop in SCHEMA[prefix]` together with the
lookup `SCHEMA[prefix][prop]` of merge_csv_data. -/
def schemaLookup (pfx prop : String) : Option ValueForm :=
  match SCHEMA.find? (fun e => e.1 == pfx) with
  | some e => (e.2.find? (fun q => q.1 == prop)).map (fun q => q.2)
  | none => none

/-- Number of fields in the canonical schema. -/
def schemaFieldCount : Nat := (SCHEMA.map (fun e => e.2.length)).sum

/-- Models XMPMeta.get_namespace_for_prefix for the standard namespace
registrations of the prefixes used in SCHEMA. -/
def nsForPfx (pfx : String) : String :=
  if pfx == "xmp" then "http://ns.adobe.com/xap/1.0/"
  else if pfx == "photoshop" then "http://ns.adobe.com/photoshop/1.0/"
  else if pfx == "dc" then "http://purl.org/dc/elements/1.1/"
  else if pfx == "Iptc4xmpExt" then "http://iptc.org/std/Iptc4xmpExt/2008-02-29/"
  else if pfx == "tiff" then "http://ns.adobe.com/tiff/1.0/"
  else if pfx == "exifEX" then "http://cipa.jp/exif/1.0/"
  else ""

/-- The photoshop namespace URI, as written in FLICKR_SCHEMA. -/
def psNS : String := "http://ns.adobe.com/photoshop/1.0/"

/-- The Dublin Core namespace URI, as written in FLICKR_SCHEMA. -/
def dcNS : String := "http://purl.org/dc/elements/1.1/"

/-- The merge-relevant state of an Asset: the open xmp packet and the
xmp_updates mutation counter. -/
structure MState where
  pkt : Packet
  updates : Nat
deriving DecidableEq, Repr


/-- The body of merge_csv_data for one recognized field
(xmp_functions.py 271-313), dispatching on the schema value form. -/
def mergeCsvField (st : MState) (pfx prop : String) (form : ValueForm)
    (value : String) : MState :=
  let ns := nsForPfx pfx
  let propEx := doesPropertyExist st.pkt ns prop
  match form with
  | ValueForm.simple =>
    if ¬ propEx ∨ getProperty st.pkt ns prop ≠ value then
      ⟨setProperty st.pkt ns prop value, st.updates + 1⟩
    else st
  | ValueForm.ordered | ValueForm.unordered =>
    let vals := (pySplit value ',').map (fun x => stripChars x [' '])
    let start : MState :=
      ⟨if propEx then deleteProperty st.pkt ns prop else st.pkt, st.updates⟩
    vals.foldl (fun s v => ⟨appendArrayItem s.pkt ns prop v, s.updates + 1⟩) start
  | ValueForm.alternative =>
    if ¬ propEx ∨ getLocalizedText st.pkt ns prop "en" "x-default" ≠ value then
      ⟨setLocalizedText st.pkt ns prop "en" "x-default" value, st.updates + 1⟩
    else st

/-- One (key, value) entry of the loop of Asset.merge_csv_data
(xmp_functions.py 260-318): skip empty values, keys that do not split into
exactly two ":"-separated parts, and (prefix, property) pairs missing from
SCHEMA. -/
def mergeCsvEntry (st : MState) (kv : String × String) : MState :=
  if kv.2 ≠ "" then
    match pySplit kv.1 ':' with
    | [pfx, prop] =>
      match schemaLookup pfx prop with
      | some form => mergeCsvField st pfx prop form kv.2
      | none => st
    | _ => st
  else st

/-- Asset.merge_csv_data (xmp_functions.py 252-320): folds the row's entries
in order. -/
def mergeCsvData (st : MState) (metadata : List (String × String)) : MState :=
  metadata.foldl mergeCsvEntry st

/-- The flickr annotations relevant to FLICKR_SCHEMA: the four mapped keys
id, name, description, tags.  `none` models the key being absent from the
json dictionary; the tags value models the list of tag values
`[d['tag'] for d in fd]`. -/
structure FlickrData where
  id : Option String
  name : Option String
  description : Option String
  tags : Option (List String)

/-- The simple branch of Asset.merge_flickr_data
(xmp_functions.py 204-217, 243-246). -/
def mergeFlickrSimple (st : MState) (ns prop fd : String) : MState :=
  if doesPropertyExist st.pkt ns prop then
    if getProperty st.pkt ns prop ≠ fd then
      ⟨setProperty st.pkt ns prop fd, st.updates + 1⟩
    else st
  else ⟨setProperty st.pkt ns prop fd, st.updates + 1⟩

/-- The alternative branch of Asset.merge_flickr_data
(xmp_functions.py 185-203, 235-242): reads with generic "en", specific
"en-US"; writes with specific "x-default". -/
def mergeFlickrAlt (st : MState) (ns prop fd : String) : MState :=
  if doesPropertyExist st.pkt ns prop then
    if getLocalizedText st.pkt ns prop "en" "en-US" ≠ fd then
      ⟨setLocalizedText st.pkt ns prop "en" "x-default" fd, st.updates + 1⟩
    else st
  else ⟨setLocalizedText st.pkt ns prop "en" "x-default" fd, st.updates + 1⟩

/-- The array branch of Asset.merge_flickr_data (xmp_functions.py 160-184,
219-234): if the property exists, first remove from the incoming collection
every value already present in the array (one removal per array item), then
append each remaining non-empty item, one mutation per append; if it does not
exist, append every non-empty item directly. -/
def mergeFlickrArr (st : MState) (ns prop : String) (fd : List String) : MState :=
  if doesPropertyExist st.pkt ns prop then
    let k := countArrayItems st.pkt ns prop
    let fd2 := (List.range k).foldl
      (fun acc i =>
        if getArrayItem st.pkt ns prop (i + 1) ∈ acc
        then acc.erase (getArrayItem st.pkt ns prop (i + 1)) else acc) fd
    fd2.foldl (fun s item =>
      if item ≠ "" then ⟨appendArrayItem s.pkt ns prop item, s.updates + 1⟩ else s) st
  else
    fd.foldl (fun s item =>
      if item ≠ "" then ⟨appendArrayItem s.pkt ns prop item, s.updates + 1⟩ else s) st

/-- One simple-form FLICKR_SCHEMA key: skipped when absent or empty. -/
def flickrStepSimpleKey (st : MState) (ns prop : String) (fd : Option String) : MState :=
  match fd with
  | some s => if s ≠ "" then mergeFlickrSimple st ns prop s else st
  | none => st

/-- One alternative-form FLICKR_SCHEMA key: skipped when absent or empty. -/
def flickrStepAltKey (st : MState) (ns prop : String) (fd : Option String) : MState :=
  match fd with
  | some s => if s ≠ "" then mergeFlickrAlt st ns prop s else st
  | none => st

/-- The tags key: skipped when absent or the empty list; a non-empty list is
converted to a Python set, modelled as the duplicate-free list `l.dedup`
(set iteration order is unspecified; the properties proved below do not
depend on it). -/
def flickrStepTags (st : MState) (ns prop : String) (fd : Option (List String)) : MState :=
  match fd with
  | some l => if l ≠ [] then mergeFlickrArr st ns prop l.dedup else st
  | none => st

/-- Asset.merge_flickr_data (xmp_functions.py 134-250): processes the
FLICKR_SCHEMA keys id, name, description, tags in order. -/
def mergeFlickrData (st : MState) (fd : FlickrData) : MState :=
  flickrStepTags
    (flickrStepAltKey
      (flickrStepAltKey
        (flickrStepSimpleKey st psNS "Instructions" fd.id)
        dcNS "title" fd.name)
      dcNS "description" fd.description)
    dcNS "subject" fd.tags

/-- The per-field extraction of Asset.retrieve_xmp_metadata
(xmp_functions.py 336-362) for an asset that has a packet. -/
def extractField (p : Packet) (ns prop : String) (form : ValueForm) : String :=
  if doesPropertyExist p ns prop then
    match form with
    | ValueForm.ordered | ValueForm.unordered =>
      String.intercalate ", " ((List.range (countArrayItems p ns prop)).map
        (fun i => getArrayItem p ns prop (i + 1)))
    | ValueForm.alternative => getLocalizedText p ns prop "en" "en-US"
    | ValueForm.simple => getProperty p ns prop
  else ""

/-- Asset.retrieve_xmp_metadata (xmp_functions.py 322-368): the filename
followed by one value per schema field in schema order; every field is the
empty string when there is no packet. -/
def retrieveXmpMetadata (filename : String) (xmp : Option Packet) : List String :=
  filename ::
    SCHEMA.flatMap (fun e =>
      e.2.map (fun pv =>
        match xmp with
        | some p => extractField p (nsForPfx e.1) pv.1 pv.2
        | none => ""))

/-- The fields set by Asset.__init__ that the claims mention
(xmp_functions.py 24-31). -/
structure AssetInit where
  flickr_id : Option String
  xmp : Option Packet
  xmp_updates : Nat

/-- Asset.__init__: no flickr id, no packet, zero updates. -/
def initAsset : AssetInit := ⟨none, none, 0⟩

/-- The guard of Asset.replace_xmp_packet (xmp_functions.py 97): a write-back
is attempted exactly when a packet is present and updates were made. -/
def attemptsWrite (xmp : Option Packet) (updates : Nat) : Bool :=
  xmp.isSome && decide (0 < updates)

/-- True when every character of s is an ASCII decimal digit (code 48-57),
the test of Asset.get_flickr_id; vacuously true for the empty string. -/
def isDigitStr (s : String) : Bool :=
  s.toList.all (fun d => 48 ≤ d.toNat && d.toNat ≤ 57)

/-- The characters of Python filename.strip("_o.jpg"). -/
def flickrStripSet : List Char := ['_', 'o', '.', 'j', 'p', 'g']

/-- Asset.get_flickr_id (xmp_functions.py 33-64): returns the flickr_id field
of a fresh Asset after the call (initially none). -/
def getFlickrId (filename : String) : Option String :=
  let idOptions := pySplit (stripChars filename flickrStripSet) '_'
  if isDigitStr (idOptions.getLastD "") then some (idOptions.getLastD "")
  else if idOptions.length > 1 then
    if isDigitStr (idOptions.getD (idOptions.length - 2) "") then
      some (idOptions.getD (idOptions.length - 2) "")
    else none
  else none

/-! ### Packet accessor lemmas -/

theorem lookupProp_nil (ns prop : String) : lookupProp [] ns prop = none := rfl

theorem lookupProp_cons (e : String × String × PropVal) (rest : Packet)
    (ns prop : String) :
    lookupProp (e :: rest) ns prop =
      if e.1 == ns && e.2.1 == prop then some e.2.2 else lookupProp rest ns prop := by
  cases h : (e.1 == ns && e.2.1 == prop) <;> simp [lookupProp, List.find?_cons, h]

theorem lookup_setEntry_self (p : Packet) (ns prop : String) (v : PropVal) :
    lookupProp (setEntry p ns prop v) ns prop = some v := by
  induction p with
  | nil => simp [setEntry, lookupProp_cons, lookupProp_nil]
  | cons e rest ih =>
    by_cases h : (e.1 == ns && e.2.1 == prop) = true
    · simp [setEntry, h, lookupProp_cons]
    · rw [setEntry]
      rw [if_neg h]
      rw [lookupProp_cons, if_neg h]
      exact ih

theorem keyBeq_false {a b ns prop : String} (hne : ¬(ns = a ∧ prop = b)) :
    (a == ns && b == prop) = false := by
  cases hn : a == ns <;> cases hp : b == prop <;> simp_all [beq_iff_eq]

theorem lookup_setEntry_ne (p : Packet) (ns prop : String) (v : PropVal)
    (ns2 prop2 : String) (h : ¬(ns2 = ns ∧ prop2 = prop)) :
    lookupProp (setEntry p ns prop v) ns2 prop2 = lookupProp p ns2 prop2 := by
  have hne : (ns == ns2 && prop == prop2) = false := keyBeq_false h
  induction p with
  | nil => simp [setEntry, lookupProp_cons, lookupProp_nil, hne]
  | cons e rest ih =>
    cases he : (e.1 == ns && e.2.1 == prop) with
    | true =>
      rw [setEntry, if_pos he, lookupProp_cons, lookupProp_cons, hne]
      have hee : (e.1 == ns2 && e.2.1 == prop2) = false := by
        simp only [Bool.and_eq_true, beq_iff_eq] at he
        rw [he.1, he.2]
        exact keyBeq_false h
      rw [hee]
      simp
    | false =>
      rw [setEntry, if_neg (by simp [he]), lookupProp_cons, lookupProp_cons]
      cases h2 : (e.1 == ns2 && e.2.1 == prop2) with
      | true => simp [h2]
      | false => simpa [h2] using ih

theorem lookup_delete_self (p : Packet) (ns prop : String) :
    lookupProp (deleteProperty p ns prop) ns prop = none := by
  induction p with
  | nil => rfl
  | cons e rest ih =>
    rw [deleteProperty, List.filter_cons]
    rw [deleteProperty] at ih
    cases he : (e.1 == ns && e.2.1 == prop) with
    | true =>
      simp only [he, Bool.not_true, Bool.false_eq_true, if_false]
      exact ih
    | false =>
      simp only [he, Bool.not_false, if_true]
      rw [lookupProp_cons, he]
      simpa using ih

theorem lookup_delete_ne (p : Packet) (ns prop ns2 prop2 : String)
    (h : ¬(ns2 = ns ∧ prop2 = prop)) :
    lookupProp (deleteProperty p ns prop) ns2 prop2 = lookupProp p ns2 prop2 := by
  induction p with
  | nil => rfl
  | cons e rest ih =>
    rw [deleteProperty, List.filter_cons]
    rw [deleteProperty] at ih
    cases he : (e.1 == ns && e.2.1 == prop) with
    | true =>
      have hee : (e.1 == ns2 && e.2.1 == prop2) = false := by
        simp only [Bool.and_eq_true, beq_iff_eq] at he
        rw [he.1, he.2]
        exact keyBeq_false h
      simp only [he, Bool.not_true, Bool.false_eq_true, if_false]
      rw [lookupProp_cons, hee]
      simpa using ih
    | false =>
      simp only [he, Bool.not_false, if_true]
      rw [lookupProp_cons, lookupProp_cons]
      cases h2 : (e.1 == ns2 && e.2.1 == prop2) with
      | true => simp [h2]
      | false => simpa [h2] using ih

theorem getArr_of_lookup_none (p : Packet) (ns prop : String)
    (h : lookupProp p ns prop = none) : getArr p ns prop = [] := by
  simp [getArr, h]

theorem lookup_appendArrayItem (p : Packet) (ns prop item : String) :
    lookupProp (appendArrayItem p ns prop item) ns prop =
      some (PropVal.arr (getArr p ns prop ++ [item])) := by
  simp [appendArrayItem, lookup_setEntry_self]

theorem getArr_appendArrayItem (p : Packet) (ns prop item : String) :
    getArr (appendArrayItem p ns prop item) ns prop = getArr p ns prop ++ [item] := by
  simp [getArr, lookup_appendArrayItem]

/-! ### Fold lemmas for array merges -/

theorem csvAppendFold (vals : List String) (st : MState) (ns prop : String) :
    (vals.foldl (fun s v => ⟨appendArrayItem s.pkt ns prop v, s.updates + 1⟩) st).updates
      = st.updates + vals.length ∧
    getArr (vals.foldl
        (fun s v => ⟨appendArrayItem s.pkt ns prop v, s.updates + 1⟩) st).pkt ns prop
      = getArr st.pkt ns prop ++ vals := by
  induction vals generalizing st with
  | nil => simp
  | cons v rest ih =>
    simp only [List.foldl_cons]
    rcases ih ⟨appendArrayItem st.pkt ns prop v, st.updates + 1⟩ with ⟨h1, h2⟩
    constructor
    · rw [h1, List.length_cons]
      dsimp only
      omega
    · rw [h2, getArr_appendArrayItem]
      simp

theorem csvAppendFold_lookup (vals : List String) (st : MState) (ns prop : String)
    (h : vals ≠ []) :
    lookupProp (vals.foldl
        (fun s v => ⟨appendArrayItem s.pkt ns prop v, s.updates + 1⟩) st).pkt ns prop
      = some (PropVal.arr (getArr st.pkt ns prop ++ vals)) := by
  induction vals generalizing st with
  | nil => exact absurd rfl h
  | cons v rest ih =>
    cases rest with
    | nil => simp [List.foldl_cons, lookup_appendArrayItem]
    | cons w ws =>
      rw [List.foldl_cons]
      rw [ih ⟨appendArrayItem st.pkt ns prop v, st.updates + 1⟩ (by simp)]
      rw [getArr_appendArrayItem]
      simp

theorem flickrAppendFold (fd : List String) (st : MState) (ns prop : String) :
    (fd.foldl (fun s item =>
        if item ≠ "" then ⟨appendArrayItem s.pkt ns prop item, s.updates + 1⟩ else s)
      st).updates
      = st.updates + (fd.filter (fun x => x != "")).length ∧
    getArr (fd.foldl (fun s item =>
        if item ≠ "" then ⟨appendArrayItem s.pkt ns prop item, s.updates + 1⟩ else s)
      st).pkt ns prop
      = getArr st.pkt ns prop ++ fd.filter (fun x => x != "") := by
  induction fd generalizing st with
  | nil => simp
  | cons v rest ih =>
    by_cases hv : v = ""
    · subst hv
      simp only [List.foldl_cons, ne_eq, not_true_eq_false, if_false,
        List.filter_cons, bne_self_eq_false, Bool.false_eq_true]
      exact ih st
    · simp only [List.foldl_cons, if_pos hv]
      rcases ih ⟨appendArrayItem st.pkt ns prop v, st.updates + 1⟩ with ⟨h1, h2⟩
      have hb : (v != "") = true := by simpa [bne_iff_ne]
      constructor
      · rw [h1, List.filter_cons, hb]
        simp only [if_true, List.length_cons]
        omega
      · rw [h2, getArr_appendArrayItem, List.filter_cons, hb]
        simp

theorem emptyFilterFold (ns prop : String) (rest : List String) :
    rest.filter (fun x => x != "") = [] →
    ∀ s : MState, rest.foldl (fun s item =>
        if item ≠ "" then ⟨appendArrayItem s.pkt ns prop item, s.updates + 1⟩ else s) s = s := by
  induction rest with
  | nil => intro _ s; rfl
  | cons w ws ihw =>
    intro hrest s
    simp only [List.filter_cons] at hrest
    cases hw : (w != "") with
    | true => rw [hw] at hrest; simp at hrest
    | false =>
      rw [hw] at hrest
      simp only [Bool.false_eq_true, if_false] at hrest
      have hwe : w = "" := by simpa [bne_iff_ne] using hw
      subst hwe
      simp only [List.foldl_cons, ne_eq, not_true_eq_false, if_false]
      exact ihw hrest s

theorem flickrAppendFold_lookup (fd : List String) (st : MState) (ns prop : String)
    (h : fd.filter (fun x => x != "") ≠ []) :
    lookupProp (fd.foldl (fun s item =>
        if item ≠ "" then ⟨appendArrayItem s.pkt ns prop item, s.updates + 1⟩ else s)
      st).pkt ns prop
      = some (PropVal.arr (getArr st.pkt ns prop ++ fd.filter (fun x => x != ""))) := by
  induction fd generalizing st with
  | nil => exact absurd rfl h
  | cons v rest ih =>
    by_cases hv : v = ""
    · subst hv
      simp only [List.filter_cons, bne_self_eq_false, Bool.false_eq_true, if_false] at h ⊢
      simp only [List.foldl_cons, ne_eq, not_true_eq_false, if_false]
      exact ih st h
    · have hb : (v != "") = true := by simpa [bne_iff_ne]
      simp only [List.foldl_cons, if_pos hv, List.filter_cons, hb, if_true]
      by_cases hrest : rest.filter (fun x => x != "") = []
      · rw [emptyFilterFold ns prop rest hrest, hrest, lookup_appendArrayItem]
      · rw [ih ⟨appendArrayItem st.pkt ns prop v, st.updates + 1⟩ hrest]
        rw [getArr_appendArrayItem]
        simp

theorem foldl_range_getD {α : Type} (l : List String) (f : α → String → α) (init : α) :
    (List.range l.length).foldl (fun acc i => f acc (l.getD i "")) init = l.foldl f init := by
  induction l generalizing init with
  | nil => simp
  | cons a rest ih =>
    rw [List.length_cons, List.range_succ_eq_map]
    simp only [List.foldl_cons, List.foldl_map, List.getD_cons_zero,
      Nat.succ_eq_add_one, List.getD_cons_succ]
    exact ih (f init a)

theorem map_range_getD (l : List String) :
    (List.range l.length).map (fun i => l.getD i "") = l := by
  induction l with
  | nil => simp
  | cons a rest ih =>
    rw [List.length_cons, List.range_succ_eq_map]
    simp only [List.map_cons, List.map_map, List.getD_cons_zero, Function.comp_def,
      Nat.succ_eq_add_one, List.getD_cons_succ]
    rw [ih]

theorem removeFold_sublist (vals fd : List String) :
    List.Sublist (vals.foldl (fun acc v => if v ∈ acc then acc.erase v else acc) fd) fd := by
  induction vals generalizing fd with
  | nil => simp
  | cons v rest ih =>
    simp only [List.foldl_cons]
    refine (ih _).trans ?_
    by_cases hv : v ∈ fd
    · simp only [if_pos hv]
      exact List.erase_sublist _ _
    · simp [hv]

theorem removeFold_mem (vals fd : List String) (hnd : fd.Nodup) (x : String)
    (hx : x ∈ vals.foldl (fun acc v => if v ∈ acc then acc.erase v else acc) fd) :
    x ∈ fd ∧ x ∉ vals := by
  induction vals generalizing fd with
  | nil => simpa using hx
  | cons v rest ih =>
    simp only [List.foldl_cons] at hx
    have hsub : List.Sublist (if v ∈ fd then fd.erase v else fd) fd := by
      by_cases hv : v ∈ fd
      · simp only [if_pos hv]
        exact List.erase_sublist _ _
      · simp [hv]
    have hnd2 : (if v ∈ fd then fd.erase v else fd).Nodup := List.Nodup.sublist hsub hnd
    rcases ih (if v ∈ fd then fd.erase v else fd) hnd2 hx with ⟨hmem, hnotin⟩
    by_cases hv : v ∈ fd
    · rw [if_pos hv] at hmem
      have hxe := (List.Nodup.mem_erase_iff hnd).mp hmem
      refine ⟨hxe.2, ?_⟩
      intro hc
      rcases List.mem_cons.mp hc with h1 | h1
      · exact hxe.1 h1
      · exact hnotin h1
    · rw [if_neg hv] at hmem
      refine ⟨hmem, ?_⟩
      intro hc
      rcases List.mem_cons.mp hc with h1 | h1
      · exact hv (h1 ▸ hmem)
      · exact hnotin h1

/-! ### Reduction lemmas for the merge entry points -/

theorem mergeCsvData_cons (st : MState) (kv : String × String)
    (rest : List (String × String)) :
    mergeCsvData st (kv :: rest) = mergeCsvData (mergeCsvEntry st kv) rest := rfl

theorem mergeCsvData_singleton (st : MState) (kv : String × String) :
    mergeCsvData st [kv] = mergeCsvEntry st kv := rfl

theorem mergeCsvEntry_empty (st : MState) (k : String) :
    mergeCsvEntry st (k, "") = st := by
  simp [mergeCsvEntry]

theorem mergeCsvEntry_valid (st : MState) (k v pfx prop : String) (form : ValueForm)
    (hv : v ≠ "") (hk : pySplit k ':' = [pfx, prop])
    (hf : schemaLookup pfx prop = some form) :
    mergeCsvEntry st (k, v) = mergeCsvField st pfx prop form v := by
  simp only [mergeCsvEntry, hk, hf]
  rw [if_pos hv]

theorem mergeCsvEntry_badkey (st : MState) (k v : String)
    (h : (pySplit k ':').length ≠ 2) :
    mergeCsvEntry st (k, v) = st := by
  by_cases hv : v = ""
  · subst hv; exact mergeCsvEntry_empty st k
  · rcases hsp : pySplit k ':' with _ | ⟨a, _ | ⟨b, _ | ⟨c, t⟩⟩⟩
    · simp [mergeCsvEntry, hsp, hv]
    · simp [mergeCsvEntry, hsp, hv]
    · rw [hsp] at h; simp at h
    · simp [mergeCsvEntry, hsp, hv]

theorem mergeCsvEntry_unknown (st : MState) (k v pfx prop : String)
    (hk : pySplit k ':' = [pfx, prop]) (hf : schemaLookup pfx prop = none) :
    mergeCsvEntry st (k, v) = st := by
  by_cases hv : v = ""
  · subst hv; exact mergeCsvEntry_empty st k
  · simp only [mergeCsvEntry, hk, hf]
    rw [if_pos hv]

/-! ### Per-shape lemmas for the tabular merge -/

theorem csvSimple_write (st : MState) (pfx prop value : String)
    (hcond : doesPropertyExist st.pkt (nsForPfx pfx) prop = false ∨
      getProperty st.pkt (nsForPfx pfx) prop ≠ value) :
    mergeCsvField st pfx prop ValueForm.simple value =
      ⟨setProperty st.pkt (nsForPfx pfx) prop value, st.updates + 1⟩ := by
  have hc : ¬ (doesPropertyExist st.pkt (nsForPfx pfx) prop = true) ∨
      getProperty st.pkt (nsForPfx pfx) prop ≠ value := by
    rcases hcond with h | h
    · exact Or.inl (by simp [h])
    · exact Or.inr h
  simp only [mergeCsvField]
  rw [if_pos hc]

theorem csvSimple_skip (st : MState) (pfx prop value : String)
    (hex : doesPropertyExist st.pkt (nsForPfx pfx) prop = true)
    (hval : getProperty st.pkt (nsForPfx pfx) prop = value) :
    mergeCsvField st pfx prop ValueForm.simple value = st := by
  simp only [mergeCsvField]
  rw [if_neg]
  intro hc
  rcases hc with h | h
  · exact h hex
  · exact h hval

theorem csvAlt_write (st : MState) (pfx prop value : String)
    (hcond : doesPropertyExist st.pkt (nsForPfx pfx) prop = false ∨
      getLocalizedText st.pkt (nsForPfx pfx) prop "en" "x-default" ≠ value) :
    mergeCsvField st pfx prop ValueForm.alternative value =
      ⟨setLocalizedText st.pkt (nsForPfx pfx) prop "en" "x-default" value,
        st.updates + 1⟩ := by
  have hc : ¬ (doesPropertyExist st.pkt (nsForPfx pfx) prop = true) ∨
      getLocalizedText st.pkt (nsForPfx pfx) prop "en" "x-default" ≠ value := by
    rcases hcond with h | h
    · exact Or.inl (by simp [h])
    · exact Or.inr h
  simp only [mergeCsvField]
  rw [if_pos hc]

theorem csvAlt_skip (st : MState) (pfx prop value : String)
    (hex : doesPropertyExist st.pkt (nsForPfx pfx) prop = true)
    (hval : getLocalizedText st.pkt (nsForPfx pfx) prop "en" "x-default" = value) :
    mergeCsvField st pfx prop ValueForm.alternative value = st := by
  simp only [mergeCsvField]
  rw [if_neg]
  intro hc
  rcases hc with h | h
  · exact h hex
  · exact h hval

theorem pySplitAux_ne_nil (c : Char) (l acc : List Char) : pySplitAux c l acc ≠ [] := by
  induction l generalizing acc with
  | nil => simp [pySplitAux]
  | cons x xs ih =>
    rw [pySplitAux]
    by_cases hx : x = c
    · simp [hx]
    · simpa [hx] using ih (x :: acc)

theorem pySplit_ne_nil (s : String) (c : Char) : pySplit s c ≠ [] :=
  pySplitAux_ne_nil c s.toList []

theorem csvArr_start (st : MState) (ns prop : String) :
    getArr (if doesPropertyExist st.pkt ns prop = true
      then deleteProperty st.pkt ns prop else st.pkt) ns prop = [] := by
  by_cases hex : doesPropertyExist st.pkt ns prop = true
  · rw [if_pos hex]
    exact getArr_of_lookup_none _ _ _ (lookup_delete_self _ _ _)
  · rw [if_neg hex]
    have hl : lookupProp st.pkt ns prop = none := by
      rw [doesPropertyExist] at hex
      cases hl : lookupProp st.pkt ns prop with
      | none => rfl
      | some w => rw [hl] at hex; simp at hex
    exact getArr_of_lookup_none _ _ _ hl

theorem csvArr_result (st : MState) (pfx prop value : String) (form : ValueForm)
    (hform : form = ValueForm.ordered ∨ form = ValueForm.unordered) :
    getArr (mergeCsvField st pfx prop form value).pkt (nsForPfx pfx) prop
      = (pySplit value ',').map (fun x => stripChars x [' ']) ∧
    (mergeCsvField st pfx prop form value).updates
      = st.updates + ((pySplit value ',').map (fun x => stripChars x [' '])).length ∧
    lookupProp (mergeCsvField st pfx prop form value).pkt (nsForPfx pfx) prop
      = some (PropVal.arr ((pySplit value ',').map (fun x => stripChars x [' ']))) := by
  have hstart := csvArr_start st (nsForPfx pfx) prop
  have hne : (pySplit value ',').map (fun x => stripChars x [' ']) ≠ [] := by
    intro hc
    exact pySplit_ne_nil value ',' (List.map_eq_nil_iff.mp hc)
  rcases hform with h | h <;> subst h <;>
  · simp only [mergeCsvField]
    rcases csvAppendFold ((pySplit value ',').map (fun x => stripChars x [' ']))
      ⟨if doesPropertyExist st.pkt (nsForPfx pfx) prop = true
        then deleteProperty st.pkt (nsForPfx pfx) prop else st.pkt, st.updates⟩
      (nsForPfx pfx) prop with ⟨h1, h2⟩
    have h3 := csvAppendFold_lookup
      ((pySplit value ',').map (fun x => stripChars x [' ']))
      ⟨if doesPropertyExist st.pkt (nsForPfx pfx) prop = true
        then deleteProperty st.pkt (nsForPfx pfx) prop else st.pkt, st.updates⟩
      (nsForPfx pfx) prop hne
    refine ⟨?_, ?_, ?_⟩
    · rw [h2]
      dsimp only at hstart ⊢
      rw [hstart]
      simp
    · rw [h1]
    · rw [h3]
      dsimp only at hstart ⊢
      rw [hstart]
      simp

/-! ### Reduction lemmas for the mapped-source merge -/

theorem mergeFlickrData_only_id (st : MState) (v : Option String) :
    mergeFlickrData st ⟨v, none, none, none⟩
      = flickrStepSimpleKey st psNS "Instructions" v := rfl

theorem mergeFlickrData_only_name (st : MState) (v : Option String) :
    mergeFlickrData st ⟨none, v, none, none⟩
      = flickrStepAltKey st dcNS "title" v := rfl

theorem mergeFlickrData_only_desc (st : MState) (v : Option String) :
    mergeFlickrData st ⟨none, none, v, none⟩
      = flickrStepAltKey st dcNS "description" v := rfl

theorem mergeFlickrData_only_tags (st : MState) (t : Option (List String)) :
    mergeFlickrData st ⟨none, none, none, t⟩
      = flickrStepTags st dcNS "subject" t := rfl

theorem flickrStepSimpleKey_some (st : MState) (ns prop v : String) (hv : v ≠ "") :
    flickrStepSimpleKey st ns prop (some v) = mergeFlickrSimple st ns prop v := by
  simp [flickrStepSimpleKey, hv]

theorem flickrStepAltKey_some (st : MState) (ns prop v : String) (hv : v ≠ "") :
    flickrStepAltKey st ns prop (some v) = mergeFlickrAlt st ns prop v := by
  simp [flickrStepAltKey, hv]

theorem flickrStepTags_some (st : MState) (ns prop : String) (l : List String)
    (hl : l ≠ []) :
    flickrStepTags st ns prop (some l) = mergeFlickrArr st ns prop l.dedup := by
  simp [flickrStepTags, hl]

/-! ### Per-shape lemmas for the mapped-source merge -/

theorem flickrSimple_write (st : MState) (ns prop v : String)
    (hcond : doesPropertyExist st.pkt ns prop = false ∨
      getProperty st.pkt ns prop ≠ v) :
    mergeFlickrSimple st ns prop v = ⟨setProperty st.pkt ns prop v, st.updates + 1⟩ := by
  rcases hcond with h | h
  · rw [mergeFlickrSimple, if_neg (by simp [h])]
  · by_cases hex : doesPropertyExist st.pkt ns prop = true
    · rw [mergeFlickrSimple, if_pos hex, if_pos h]
    · rw [mergeFlickrSimple, if_neg hex]

theorem flickrSimple_skip (st : MState) (ns prop v : String)
    (hex : doesPropertyExist st.pkt ns prop = true)
    (hval : getProperty st.pkt ns prop = v) :
    mergeFlickrSimple st ns prop v = st := by
  rw [mergeFlickrSimple, if_pos hex, if_neg (by simp [hval])]

theorem flickrAlt_write (st : MState) (ns prop v : String)
    (hcond : doesPropertyExist st.pkt ns prop = false ∨
      getLocalizedText st.pkt ns prop "en" "en-US" ≠ v) :
    mergeFlickrAlt st ns prop v =
      ⟨setLocalizedText st.pkt ns prop "en" "x-default" v, st.updates + 1⟩ := by
  rcases hcond with h | h
  · rw [mergeFlickrAlt, if_neg (by simp [h])]
  · by_cases hex : doesPropertyExist st.pkt ns prop = true
    · rw [mergeFlickrAlt, if_pos hex, if_pos h]
    · rw [mergeFlickrAlt, if_neg hex]

theorem flickrAlt_skip (st : MState) (ns prop v : String)
    (hex : doesPropertyExist st.pkt ns prop = true)
    (hval : getLocalizedText st.pkt ns prop "en" "en-US" = v) :
    mergeFlickrAlt st ns prop v = st := by
  rw [mergeFlickrAlt, if_pos hex, if_neg (by simp [hval])]

theorem flickrArr_exists (st : MState) (ns prop : String) (its fd : List String)
    (hl : lookupProp st.pkt ns prop = some (PropVal.arr its)) :
    getArr (mergeFlickrArr st ns prop fd).pkt ns prop
      = its ++ (its.foldl (fun acc v => if v ∈ acc then acc.erase v else acc) fd).filter
          (fun x => x != "") ∧
    (mergeFlickrArr st ns prop fd).updates
      = st.updates + ((its.foldl (fun acc v => if v ∈ acc then acc.erase v else acc) fd).filter
          (fun x => x != "")).length := by
  have hex : doesPropertyExist st.pkt ns prop = true := by
    simp [doesPropertyExist, hl]
  have hga : getArr st.pkt ns prop = its := by simp [getArr, hl]
  simp only [mergeFlickrArr]
  rw [if_pos hex]
  have hitem : ∀ i : Nat, getArrayItem st.pkt ns prop (i + 1) = its.getD i "" := by
    intro i
    rw [getArrayItem, hga]
    simp
  have hrange : (List.range (countArrayItems st.pkt ns prop)).foldl
      (fun acc i => if getArrayItem st.pkt ns prop (i + 1) ∈ acc
        then acc.erase (getArrayItem st.pkt ns prop (i + 1)) else acc) fd
      = its.foldl (fun acc v => if v ∈ acc then acc.erase v else acc) fd := by
    rw [countArrayItems, hga]
    simp only [hitem]
    exact foldl_range_getD its (fun acc v => if v ∈ acc then acc.erase v else acc) fd
  rw [hrange]
  rcases flickrAppendFold (its.foldl (fun acc v => if v ∈ acc then acc.erase v else acc) fd)
    st ns prop with ⟨h1, h2⟩
  exact ⟨by rw [h2, hga], by rw [h1]⟩

theorem flickrArr_missing (st : MState) (ns prop : String) (fd : List String)
    (hl : lookupProp st.pkt ns prop = none) :
    getArr (mergeFlickrArr st ns prop fd).pkt ns prop = fd.filter (fun x => x != "") ∧
    (mergeFlickrArr st ns prop fd).updates
      = st.updates + (fd.filter (fun x => x != "")).length := by
  have hex : ¬ doesPropertyExist st.pkt ns prop = true := by
    simp [doesPropertyExist, hl]
  have hga : getArr st.pkt ns prop = [] := getArr_of_lookup_none _ _ _ hl
  simp only [mergeFlickrArr]
  rw [if_neg hex]
  rcases flickrAppendFold fd st ns prop with ⟨h1, h2⟩
  refine ⟨?_, by rw [h1]⟩
  rw [h2, hga]
  simp

/-! ### Monotonicity of the mutation counter -/

theorem updates_le_csvField (st : MState) (pfx prop : String) (form : ValueForm)
    (value : String) :
    st.updates ≤ (mergeCsvField st pfx prop form value).updates := by
  cases form with
  | simple =>
    simp only [mergeCsvField]
    split
    · dsimp only; omega
    · exact le_refl _
  | alternative =>
    simp only [mergeCsvField]
    split
    · dsimp only; omega
    · exact le_refl _
  | ordered =>
    rcases csvArr_result st pfx prop value ValueForm.ordered (Or.inl rfl) with ⟨_, h2, _⟩
    rw [h2]
    omega
  | unordered =>
    rcases csvArr_result st pfx prop value ValueForm.unordered (Or.inr rfl) with ⟨_, h2, _⟩
    rw [h2]
    omega

theorem updates_le_csvEntry (st : MState) (kv : String × String) :
    st.updates ≤ (mergeCsvEntry st kv).updates := by
  rcases kv with ⟨k, v⟩
  by_cases hv : v = ""
  · subst hv
    rw [mergeCsvEntry_empty]
  · rcases hsp : pySplit k ':' with _ | ⟨a, _ | ⟨b, _ | ⟨c, t⟩⟩⟩
    · rw [mergeCsvEntry_badkey st k v (by rw [hsp]; simp)]
    · rw [mergeCsvEntry_badkey st k v (by rw [hsp]; simp)]
    · cases hf : schemaLookup a b with
      | some form =>
        rw [mergeCsvEntry_valid st k v a b form hv hsp hf]
        exact updates_le_csvField st a b form v
      | none => rw [mergeCsvEntry_unknown st k v a b hsp hf]
    · rw [mergeCsvEntry_badkey st k v (by rw [hsp]; simp)]

theorem updates_le_csvData (st : MState) (row : List (String × String)) :
    st.updates ≤ (mergeCsvData st row).updates := by
  induction row generalizing st with
  | nil => exact le_refl _
  | cons kv rest ih =>
    rw [mergeCsvData_cons]
    exact (updates_le_csvEntry st kv).trans (ih _)

theorem updates_le_flickrSimple (st : MState) (ns prop v : String) :
    st.updates ≤ (mergeFlickrSimple st ns prop v).updates := by
  unfold mergeFlickrSimple
  split
  · split
    · dsimp only; omega
    · exact le_refl _
  · dsimp only; omega

theorem updates_le_flickrAlt (st : MState) (ns prop v : String) :
    st.updates ≤ (mergeFlickrAlt st ns prop v).updates := by
  unfold mergeFlickrAlt
  split
  · split
    · dsimp only; omega
    · exact le_refl _
  · dsimp only; omega

theorem updates_le_flickrArr (st : MState) (ns prop : String) (fd : List String) :
    st.updates ≤ (mergeFlickrArr st ns prop fd).updates := by
  by_cases hex : doesPropertyExist st.pkt ns prop = true
  · simp only [mergeFlickrArr]
    rw [if_pos hex]
    rcases flickrAppendFold ((List.range (countArrayItems st.pkt ns prop)).foldl
      (fun acc i => if getArrayItem st.pkt ns prop (i + 1) ∈ acc
        then acc.erase (getArrayItem st.pkt ns prop (i + 1)) else acc) fd)
      st ns prop with ⟨h1, _⟩
    rw [h1]
    omega
  · simp only [mergeFlickrArr]
    rw [if_neg hex]
    rcases flickrAppendFold fd st ns prop with ⟨h1, _⟩
    rw [h1]
    omega

theorem updates_le_stepSimple (st : MState) (ns prop : String) (fd : Option String) :
    st.updates ≤ (flickrStepSimpleKey st ns prop fd).updates := by
  cases fd with
  | none => exact le_refl _
  | some s =>
    simp only [flickrStepSimpleKey]
    split
    · exact updates_le_flickrSimple st ns prop s
    · exact le_refl _

theorem updates_le_stepAlt (st : MState) (ns prop : String) (fd : Option String) :
    st.updates ≤ (flickrStepAltKey st ns prop fd).updates := by
  cases fd with
  | none => exact le_refl _
  | some s =>
    simp only [flickrStepAltKey]
    split
    · exact updates_le_flickrAlt st ns prop s
    · exact le_refl _

theorem updates_le_stepTags (st : MState) (ns prop : String)
    (fd : Option (List String)) :
    st.updates ≤ (flickrStepTags st ns prop fd).updates := by
  cases fd with
  | none => exact le_refl _
  | some l =>
    simp only [flickrStepTags]
    split
    · exact updates_le_flickrArr st ns prop l.dedup
    · exact le_refl _

theorem updates_le_flickrData (st : MState) (fd : FlickrData) :
    st.updates ≤ (mergeFlickrData st fd).updates := by
  unfold mergeFlickrData
  calc st.updates
      ≤ _ := updates_le_stepSimple st psNS "Instructions" fd.id
    _ ≤ _ := updates_le_stepAlt _ dcNS "title" fd.name
    _ ≤ _ := updates_le_stepAlt _ dcNS "description" fd.description
    _ ≤ _ := updates_le_stepTags _ dcNS "subject" fd.tags

/-! ### Extraction lemmas -/

theorem extractField_simple (p : Packet) (ns prop : String)
    (hex : doesPropertyExist p ns prop = true) :
    extractField p ns prop ValueForm.simple = getProperty p ns prop := by
  simp [extractField, hex]

theorem extractField_alt (p : Packet) (ns prop : String)
    (hex : doesPropertyExist p ns prop = true) :
    extractField p ns prop ValueForm.alternative
      = getLocalizedText p ns prop "en" "en-US" := by
  simp [extractField, hex]

theorem extractField_arr (p : Packet) (ns prop : String) (its : List String)
    (form : ValueForm) (hform : form = ValueForm.ordered ∨ form = ValueForm.unordered)
    (hl : lookupProp p ns prop = some (PropVal.arr its)) :
    extractField p ns prop form = String.intercalate ", " its := by
  have hex : doesPropertyExist p ns prop = true := by simp [doesPropertyExist, hl]
  have hga : getArr p ns prop = its := by simp [getArr, hl]
  have hitem : ∀ i : Nat, getArrayItem p ns prop (i + 1) = its.getD i "" := by
    intro i
    rw [getArrayItem, hga]
    simp
  rcases hform with h | h <;> subst h <;>
  · simp only [extractField, hex, if_true, countArrayItems, hga, hitem]
    rw [map_range_getD]

theorem extractField_missing (p : Packet) (ns prop : String) (form : ValueForm)
    (hex : doesPropertyExist p ns prop = false) :
    extractField p ns prop form = "" := by
  simp [extractField, hex]

/-! ### Localized-text lemmas -/

/-- No alternative of the alt-text items is selected by an English read:
no item has language "en-US", "en", or a language extending "en". -/
def noEnAlt (items : List (String × String)) : Prop :=
  ∀ it ∈ items, it.1 ≠ "en-US" ∧ it.1 ≠ "en" ∧ strPre "en-" it.1 = false

theorem find_enUS_none (items : List (String × String)) (h : noEnAlt items) :
    items.find? (fun it => it.1 == "en-US") = none := by
  rw [List.find?_eq_none]
  intro it hit
  simpa using (h it hit).1

theorem find_gen_none (items : List (String × String)) (h : noEnAlt items) :
    items.find? (fun it => it.1 == "en" || strPre ("en" ++ "-") it.1) = none := by
  rw [List.find?_eq_none]
  intro it hit
  have hdash : ("en" ++ "-" : String) = "en-" := rfl
  rw [hdash]
  simp [(h it hit).2.1, (h it hit).2.2]

theorem chooseLocalized_noEn (items : List (String × String)) (h : noEnAlt items) :
    chooseLocalized items "en" "en-US" = chooseLocalized items "en" "x-default" := by
  unfold chooseLocalized
  rw [find_enUS_none items h, find_gen_none items h]
  cases hx : items.find? (fun it => it.1 == "x-default") with
  | some it => simp [hx]
  | none => simp [hx]

theorem chooseLocalized_xdefault (items : List (String × String)) (v : String)
    (h : noEnAlt items)
    (hfind : ∃ lang, items.find? (fun it => it.1 == "x-default") = some (lang, v)) :
    chooseLocalized items "en" "en-US" = v := by
  unfold chooseLocalized
  rw [find_enUS_none items h, find_gen_none items h]
  rcases hfind with ⟨lang, hfind⟩
  rw [hfind]

theorem getAltItems_set (p : Packet) (ns prop v : String) :
    getAltItems (setLocalizedText p ns prop "en" "x-default" v) ns prop
      = (if (getAltItems p ns prop).any (fun it => it.1 == "x-default")
         then (getAltItems p ns prop).map
           (fun it => if it.1 == "x-default" then (it.1, v) else it)
         else ("x-default", v) :: getAltItems p ns prop) := by
  simp only [setLocalizedText]
  simp [getAltItems, lookup_setEntry_self]

theorem exists_setLocalized (p : Packet) (ns prop g s v : String) :
    doesPropertyExist (setLocalizedText p ns prop g s v) ns prop = true := by
  simp [setLocalizedText, doesPropertyExist, lookup_setEntry_self]

theorem find_xdefault_insert (items : List (String × String)) (v : String) :
    (("x-default", v) :: items).find? (fun it => it.1 == "x-default")
      = some ("x-default", v) :=
  List.find?_cons_of_pos _ (by rfl)

theorem find_xdefault_map (items : List (String × String)) (v : String)
    (ha : items.any (fun it => it.1 == "x-default") = true) :
    ∃ lang, (items.map (fun it => if it.1 == "x-default" then (it.1, v) else it)).find?
      (fun it => it.1 == "x-default") = some (lang, v) := by
  induction items with
  | nil => simp at ha
  | cons e rest ih =>
    cases he : (e.1 == "x-default") with
    | true =>
      refine ⟨e.1, ?_⟩
      simp only [List.map_cons, if_pos he]
      exact List.find?_cons_of_pos _ he
    | false =>
      simp only [List.any_cons, he, Bool.false_or] at ha
      rcases ih ha with ⟨lang, hl⟩
      refine ⟨lang, ?_⟩
      simp only [List.map_cons, if_neg (by simp [he] : ¬ (e.1 == "x-default") = true)]
      rw [List.find?_cons_of_neg _ (by simp [he]), hl]

theorem noEn_insert (items : List (String × String)) (v : String) (h : noEnAlt items) :
    noEnAlt (("x-default", v) :: items) := by
  intro it hit
  rcases List.mem_cons.mp hit with h1 | h1
  · subst h1
    refine ⟨?_, ?_, ?_⟩ <;> dsimp only <;> decide
  · exact h it h1

theorem noEn_map (items : List (String × String)) (v : String) (h : noEnAlt items) :
    noEnAlt (items.map (fun it => if it.1 == "x-default" then (it.1, v) else it)) := by
  intro it2 hit2
  rcases List.mem_map.mp hit2 with ⟨it, hit, heq⟩
  have hfst : it2.1 = it.1 := by
    by_cases hc : (it.1 == "x-default") = true
    · rw [if_pos hc] at heq
      rw [← heq]
    · rw [if_neg hc] at heq
      rw [← heq]
  rw [hfst]
  exact h it hit

theorem getLoc_enUS_after_set (p : Packet) (ns prop v : String)
    (h : noEnAlt (getAltItems p ns prop)) :
    getLocalizedText (setLocalizedText p ns prop "en" "x-default" v) ns prop
      "en" "en-US" = v := by
  rw [getLocalizedText, getAltItems_set]
  by_cases ha : (getAltItems p ns prop).any (fun it => it.1 == "x-default") = true
  · rw [if_pos ha]
    exact chooseLocalized_xdefault _ v (noEn_map _ v h) (find_xdefault_map _ v ha)
  · rw [if_neg ha]
    exact chooseLocalized_xdefault _ v (noEn_insert _ v h)
      ⟨"x-default", find_xdefault_insert _ v⟩

theorem getLoc_enUS_eq_xdefault (p : Packet) (ns prop : String)
    (h : noEnAlt (getAltItems p ns prop)) :
    getLocalizedText p ns prop "en" "en-US"
      = getLocalizedText p ns prop "en" "x-default" := by
  rw [getLocalizedText, getLocalizedText]
  exact chooseLocalized_noEn _ h

/-! ### Claim theorems -/

/-- C7: the per-item mutation counter xmp_updates starts at 0 (Asset.__init__),
is monotonically non-decreasing across both merge operations (no operation
decreases or resets it), and replace_xmp_packet attempts to put the packet
into the file exactly when a packet handle is present and the counter is
strictly greater than 0. -/
theorem C7_counter_invariant :
    initAsset.xmp_updates = 0 ∧
    (∀ (st : MState) (row : List (String × String)),
      st.updates ≤ (mergeCsvData st row).updates) ∧
    (∀ (st : MState) (fd : FlickrData),
      st.updates ≤ (mergeFlickrData st fd).updates) ∧
    (∀ (xmp : Option Packet) (updates : Nat),
      attemptsWrite xmp updates = true ↔ xmp.isSome = true ∧ 0 < updates) := by
  refine ⟨rfl, updates_le_csvData, updates_le_flickrData, ?_⟩
  intro xmp updates
  simp [attemptsWrite]

/-- C8: a field whose incoming value is the empty string (or, for tags, the
empty list) is skipped entirely by both merge entry points: replacing such a
value by an absent one changes nothing, so no packet write, no property
creation and no counter change happen for that field. -/
theorem C8_empty_skipped :
    (∀ (st : MState) (k : String) (rest : List (String × String)),
      mergeCsvData st ((k, "") :: rest) = mergeCsvData st rest) ∧
    (∀ (st : MState) (n d : Option String) (t : Option (List String)),
      mergeFlickrData st ⟨some "", n, d, t⟩ = mergeFlickrData st ⟨none, n, d, t⟩) ∧
    (∀ (st : MState) (i d : Option String) (t : Option (List String)),
      mergeFlickrData st ⟨i, some "", d, t⟩ = mergeFlickrData st ⟨i, none, d, t⟩) ∧
    (∀ (st : MState) (i n : Option String) (t : Option (List String)),
      mergeFlickrData st ⟨i, n, some "", t⟩ = mergeFlickrData st ⟨i, n, none, t⟩) ∧
    (∀ (st : MState) (i n d : Option String),
      mergeFlickrData st ⟨i, n, d, some []⟩ = mergeFlickrData st ⟨i, n, d, none⟩) := by
  refine ⟨?_, ?_, ?_, ?_, ?_⟩
  · intro st k rest
    rw [mergeCsvData_cons, mergeCsvEntry_empty]
  · intro st n d t
    unfold mergeFlickrData
    simp [flickrStepSimpleKey]
  · intro st i d t
    unfold mergeFlickrData
    simp [flickrStepAltKey]
  · intro st i n t
    unfold mergeFlickrData
    simp [flickrStepAltKey]
  · intro st i n d
    unfold mergeFlickrData
    simp [flickrStepTags]

/-- C9: merge_csv_data skips, without touching the packet or the counter, any
entry whose key does not split into exactly two ":"-separated parts, and any
entry whose (prefix, property) pair is not present in SCHEMA; in both cases
the remaining entries of the row are still processed. -/
theorem C9_unresolved_keys_skipped :
    (∀ (st : MState) (k v : String) (rest : List (String × String)),
      (pySplit k ':').length ≠ 2 →
      mergeCsvData st ((k, v) :: rest) = mergeCsvData st rest) ∧
    (∀ (st : MState) (k v pfx prop : String) (rest : List (String × String)),
      pySplit k ':' = [pfx, prop] → schemaLookup pfx prop = none →
      mergeCsvData st ((k, v) :: rest) = mergeCsvData st rest) := by
  constructor
  · intro st k v rest h
    rw [mergeCsvData_cons, mergeCsvEntry_badkey st k v h]
  · intro st k v pfx prop rest hk hf
    rw [mergeCsvData_cons, mergeCsvEntry_unknown st k v pfx prop hk hf]

/-- C9 witness: a key with no colon and a key with an unknown schema pair are
skipped while the (here empty) rest of the row is still processed. -/
theorem C9_unresolved_keys_skipped_witness :
    mergeCsvData ⟨[], 7⟩ [("badkey", "x")] = mergeCsvData ⟨[], 7⟩ [] ∧
    mergeCsvData ⟨[], 7⟩ [("foo:bar", "x")] = mergeCsvData ⟨[], 7⟩ [] := by
  constructor
  · exact C9_unresolved_keys_skipped.1 ⟨[], 7⟩ "badkey" "x" [] (by decide)
  · exact C9_unresolved_keys_skipped.2 ⟨[], 7⟩ "foo:bar" "x" "foo" "bar" [] (by decide)
      (by decide)

/-- C10: get_flickr_id leaves flickr_id as none or sets it to a string whose
characters are all ASCII decimal digits (code points 48-57, vacuously for the
empty string), namely the last, or failing that the second-to-last,
"_"-separated segment of the filename after stripping the characters
"_", "o", ".", "j", "p", "g" from both ends; an empty segment qualifies, so
the id can be set to the empty string (witnessed by filename "o.jpg"). -/
theorem C10_flickr_id :
    (∀ fn s : String, getFlickrId fn = some s →
      isDigitStr s = true ∧
      (s = (pySplit (stripChars fn flickrStripSet) '_').getLastD "" ∨
       (isDigitStr ((pySplit (stripChars fn flickrStripSet) '_').getLastD "") = false ∧
        (pySplit (stripChars fn flickrStripSet) '_').length > 1 ∧
        s = (pySplit (stripChars fn flickrStripSet) '_').getD
          ((pySplit (stripChars fn flickrStripSet) '_').length - 2) ""))) ∧
    getFlickrId "o.jpg" = some "" := by
  constructor
  · intro fn s h
    simp only [getFlickrId] at h
    split_ifs at h with h1 h2 h3
    · cases h
      exact ⟨h1, Or.inl rfl⟩
    · cases h
      refine ⟨h3, Or.inr ⟨?_, h2, rfl⟩⟩
      cases hb : isDigitStr ((pySplit (stripChars fn flickrStripSet) '_').getLastD "") with
      | false => rfl
      | true => exact absurd hb h1
  · decide

/-- C10 witness: a typical flickr export filename yields the digit-only last
segment. -/
theorem C10_flickr_id_witness :
    isDigitStr "1234" = true ∧
    ("1234" = (pySplit (stripChars "1234_o.jpg" flickrStripSet) '_').getLastD "" ∨
     (isDigitStr ((pySplit (stripChars "1234_o.jpg" flickrStripSet) '_').getLastD "")
        = false ∧
      (pySplit (stripChars "1234_o.jpg" flickrStripSet) '_').length > 1 ∧
      "1234" = (pySplit (stripChars "1234_o.jpg" flickrStripSet) '_').getD
        ((pySplit (stripChars "1234_o.jpg" flickrStripSet) '_').length - 2) "")) :=
  C10_flickr_id.1 "1234_o.jpg" "1234" (by decide)

/-- C5: merging a non-empty incoming value into a Scalar or
LocalizedAlternative field whose current value, as read by the respective
entry point, already equals the incoming value records zero mutations and
performs no write; and the xmp:Rating scenario: merging "5" into an empty
packet gives count 1, merging "5" again leaves the state (and count 1)
unchanged. -/
theorem C5_idempotence :
    (∀ (st : MState) (k v pfx prop : String),
      pySplit k ':' = [pfx, prop] → schemaLookup pfx prop = some ValueForm.simple →
      v ≠ "" → doesPropertyExist st.pkt (nsForPfx pfx) prop = true →
      getProperty st.pkt (nsForPfx pfx) prop = v →
      mergeCsvData st [(k, v)] = st) ∧
    (∀ (st : MState) (k v pfx prop : String),
      pySplit k ':' = [pfx, prop] →
      schemaLookup pfx prop = some ValueForm.alternative →
      v ≠ "" → doesPropertyExist st.pkt (nsForPfx pfx) prop = true →
      getLocalizedText st.pkt (nsForPfx pfx) prop "en" "x-default" = v →
      mergeCsvData st [(k, v)] = st) ∧
    (∀ (st : MState) (v : String), v ≠ "" →
      doesPropertyExist st.pkt psNS "Instructions" = true →
      getProperty st.pkt psNS "Instructions" = v →
      mergeFlickrData st ⟨some v, none, none, none⟩ = st) ∧
    (∀ (st : MState) (v : String), v ≠ "" →
      doesPropertyExist st.pkt dcNS "title" = true →
      getLocalizedText st.pkt dcNS "title" "en" "en-US" = v →
      mergeFlickrData st ⟨none, some v, none, none⟩ = st) ∧
    (∀ (st : MState) (v : String), v ≠ "" →
      doesPropertyExist st.pkt dcNS "description" = true →
      getLocalizedText st.pkt dcNS "description" "en" "en-US" = v →
      mergeFlickrData st ⟨none, none, some v, none⟩ = st) ∧
    mergeCsvData ⟨[], 0⟩ [("xmp:Rating", "5")]
      = ⟨[(nsForPfx "xmp", "Rating", PropVal.simple "5")], 1⟩ ∧
    mergeCsvData (mergeCsvData ⟨[], 0⟩ [("xmp:Rating", "5")]) [("xmp:Rating", "5")]
      = mergeCsvData ⟨[], 0⟩ [("xmp:Rating", "5")] := by
  refine ⟨?_, ?_, ?_, ?_, ?_, by decide, by decide⟩
  · intro st k v pfx prop hk hf hv hex hval
    rw [mergeCsvData_singleton, mergeCsvEntry_valid st k v pfx prop _ hv hk hf,
      csvSimple_skip st pfx prop v hex hval]
  · intro st k v pfx prop hk hf hv hex hval
    rw [mergeCsvData_singleton, mergeCsvEntry_valid st k v pfx prop _ hv hk hf,
      csvAlt_skip st pfx prop v hex hval]
  · intro st v hv hex hval
    rw [mergeFlickrData_only_id, flickrStepSimpleKey_some st psNS "Instructions" v hv,
      flickrSimple_skip st psNS "Instructions" v hex hval]
  · intro st v hv hex hval
    rw [mergeFlickrData_only_name, flickrStepAltKey_some st dcNS "title" v hv,
      flickrAlt_skip st dcNS "title" v hex hval]
  · intro st v hv hex hval
    rw [mergeFlickrData_only_desc, flickrStepAltKey_some st dcNS "description" v hv,
      flickrAlt_skip st dcNS "description" v hex hval]

/-- C5 witness: a matching scalar re-merge and a matching localized re-merge
leave the state unchanged. -/
theorem C5_idempotence_witness :
    mergeCsvData ⟨[(nsForPfx "xmp", "Rating", PropVal.simple "5")], 1⟩
      [("xmp:Rating", "5")]
      = ⟨[(nsForPfx "xmp", "Rating", PropVal.simple "5")], 1⟩ ∧
    mergeFlickrData ⟨[(dcNS, "title", PropVal.alt [("x-default", "T")])], 2⟩
      ⟨none, some "T", none, none⟩
      = ⟨[(dcNS, "title", PropVal.alt [("x-default", "T")])], 2⟩ := by
  constructor
  · exact C5_idempotence.1 ⟨[(nsForPfx "xmp", "Rating", PropVal.simple "5")], 1⟩
      "xmp:Rating" "5" "xmp" "Rating" (by decide) (by decide) (by decide) (by decide)
      (by decide)
  · exact C5_idempotence.2.2.2.1 ⟨[(dcNS, "title", PropVal.alt [("x-default", "T")])], 2⟩
      "T" (by decide) (by decide) (by decide)

/-- C1 as stated is false: for the unordered schema field dc:subject and
incoming value "cat, ,\tbird", merge_csv_data rebuilds the array as
["cat", "", "\tbird"] with 3 mutations -- the empty element produced by the
lone-space piece is appended rather than dropped, and the tab is not
stripped (only spaces are) -- whereas the claim predicts exactly the
non-empty whitespace-trimmed elements ["cat", "bird"] with 2 mutations. -/
theorem C1_counterexample :
    getArr (mergeCsvData ⟨[(dcNS, "subject", PropVal.arr ["old"])], 0⟩
      [("dc:subject", "cat, ,\tbird")]).pkt dcNS "subject"
      = ["cat", "", "\tbird"] ∧
    (mergeCsvData ⟨[(dcNS, "subject", PropVal.arr ["old"])], 0⟩
      [("dc:subject", "cat, ,\tbird")]).updates = 3 ∧
    ["cat", "", "\tbird"] ≠ ["cat", "bird"] := by
  refine ⟨by decide, by decide, by decide⟩

/-- C1 (amended): after merge_from_tabular_row on an array-shaped schema field
with a non-empty incoming value, the array contains exactly the comma-split
elements with surrounding space characters (U+0020 only) stripped per
element -- including empty elements -- in that order, regardless of prior
contents; the existing property is deleted in full first, and one mutation is
counted per appended element (the delete itself is not counted). -/
theorem C1_tabular_full_replace (st : MState) (k v pfx prop : String)
    (form : ValueForm) (hk : pySplit k ':' = [pfx, prop])
    (hf : schemaLookup pfx prop = some form)
    (hform : form = ValueForm.ordered ∨ form = ValueForm.unordered) (hv : v ≠ "") :
    getArr (mergeCsvData st [(k, v)]).pkt (nsForPfx pfx) prop
      = (pySplit v ',').map (fun x => stripChars x [' ']) ∧
    (mergeCsvData st [(k, v)]).updates
      = st.updates + ((pySplit v ',').map (fun x => stripChars x [' '])).length := by
  rw [mergeCsvData_singleton, mergeCsvEntry_valid st k v pfx prop form hv hk hf]
  rcases csvArr_result st pfx prop v form hform with ⟨h1, h2, _⟩
  exact ⟨h1, h2⟩

/-- C1 witness: the spec's overwrite scenario, "fish, bird" into dc:creator
over an existing array. -/
theorem C1_tabular_full_replace_witness :
    getArr (mergeCsvData ⟨[(nsForPfx "dc", "creator", PropVal.arr ["old"])], 5⟩
      [("dc:creator", "fish, bird")]).pkt (nsForPfx "dc") "creator"
      = (pySplit "fish, bird" ',').map (fun x => stripChars x [' ']) ∧
    (mergeCsvData ⟨[(nsForPfx "dc", "creator", PropVal.arr ["old"])], 5⟩
      [("dc:creator", "fish, bird")]).updates
      = 5 + ((pySplit "fish, bird" ',').map (fun x => stripChars x [' '])).length :=
  C1_tabular_full_replace ⟨[(nsForPfx "dc", "creator", PropVal.arr ["old"])], 5⟩
    "dc:creator" "fish, bird" "dc" "creator" ValueForm.ordered (by decide) (by decide)
    (Or.inl rfl) (by decide)

/-- C2 as stated is false: merge_csv_data reads the current localized value
with generic "en" and specific "x-default" (xmp_functions.py 302-306), not
specific "en-US".  In a packet whose dc:title holds an "en-US" alternative
"A" and an "x-default" alternative "B", merging incoming "A" writes and
counts one mutation even though the ("en", "en-US") read equals the incoming
value, where the claim predicts no write and no mutation. -/
theorem C2_counterexample :
    getLocalizedText [(dcNS, "title", PropVal.alt [("en-US", "A"), ("x-default", "B")])]
      dcNS "title" "en" "en-US" = "A" ∧
    (mergeCsvData ⟨[(dcNS, "title", PropVal.alt [("en-US", "A"), ("x-default", "B")])], 0⟩
      [("dc:title", "A")]).updates = 1 := by
  exact ⟨by decide, by decide⟩

/-- C2 (amended): for LocalizedAlternative fields, merge_flickr_data reads the
current localized value with generic "en" / specific "en-US" while
merge_csv_data reads it with generic "en" / specific "x-default"; under its
respective read, each entry point sets the localized value with generic "en"
/ specific "x-default" and records exactly one mutation when the property is
absent or the read value differs from the incoming value, and performs no
write and records no mutation when the read value equals it. -/
theorem C2_localized_merge :
    (∀ (st : MState) (k v pfx prop : String),
      pySplit k ':' = [pfx, prop] →
      schemaLookup pfx prop = some ValueForm.alternative → v ≠ "" →
      ((doesPropertyExist st.pkt (nsForPfx pfx) prop = false ∨
          getLocalizedText st.pkt (nsForPfx pfx) prop "en" "x-default" ≠ v →
        mergeCsvData st [(k, v)]
          = ⟨setLocalizedText st.pkt (nsForPfx pfx) prop "en" "x-default" v,
              st.updates + 1⟩) ∧
       (doesPropertyExist st.pkt (nsForPfx pfx) prop = true →
        getLocalizedText st.pkt (nsForPfx pfx) prop "en" "x-default" = v →
        mergeCsvData st [(k, v)] = st))) ∧
    (∀ (st : MState) (v : String), v ≠ "" →
      ((doesPropertyExist st.pkt dcNS "title" = false ∨
          getLocalizedText st.pkt dcNS "title" "en" "en-US" ≠ v →
        mergeFlickrData st ⟨none, some v, none, none⟩
          = ⟨setLocalizedText st.pkt dcNS "title" "en" "x-default" v,
              st.updates + 1⟩) ∧
       (doesPropertyExist st.pkt dcNS "title" = true →
        getLocalizedText st.pkt dcNS "title" "en" "en-US" = v →
        mergeFlickrData st ⟨none, some v, none, none⟩ = st))) ∧
    (∀ (st : MState) (v : String), v ≠ "" →
      ((doesPropertyExist st.pkt dcNS "description" = false ∨
          getLocalizedText st.pkt dcNS "description" "en" "en-US" ≠ v →
        mergeFlickrData st ⟨none, none, some v, none⟩
          = ⟨setLocalizedText st.pkt dcNS "description" "en" "x-default" v,
              st.updates + 1⟩) ∧
       (doesPropertyExist st.pkt dcNS "description" = true →
        getLocalizedText st.pkt dcNS "description" "en" "en-US" = v →
        mergeFlickrData st ⟨none, none, some v, none⟩ = st))) := by
  refine ⟨?_, ?_, ?_⟩
  · intro st k v pfx prop hk hf hv
    constructor
    · intro hcond
      rw [mergeCsvData_singleton, mergeCsvEntry_valid st k v pfx prop _ hv hk hf,
        csvAlt_write st pfx prop v hcond]
    · intro hex hval
      rw [mergeCsvData_singleton, mergeCsvEntry_valid st k v pfx prop _ hv hk hf,
        csvAlt_skip st pfx prop v hex hval]
  · intro st v hv
    constructor
    · intro hcond
      rw [mergeFlickrData_only_name, flickrStepAltKey_some st dcNS "title" v hv,
        flickrAlt_write st dcNS "title" v hcond]
    · intro hex hval
      rw [mergeFlickrData_only_name, flickrStepAltKey_some st dcNS "title" v hv,
        flickrAlt_skip st dcNS "title" v hex hval]
  · intro st v hv
    constructor
    · intro hcond
      rw [mergeFlickrData_only_desc, flickrStepAltKey_some st dcNS "description" v hv,
        flickrAlt_write st dcNS "description" v hcond]
    · intro hex hval
      rw [mergeFlickrData_only_desc, flickrStepAltKey_some st dcNS "description" v hv,
        flickrAlt_skip st dcNS "description" v hex hval]

/-- C2 witness: a csv localized merge into an empty packet writes once, and a
matching flickr title merge is a no-op. -/
theorem C2_localized_merge_witness :
    mergeCsvData ⟨[], 0⟩ [("dc:title", "T")]
      = ⟨setLocalizedText [] (nsForPfx "dc") "title" "en" "x-default" "T", 0 + 1⟩ ∧
    mergeFlickrData ⟨[(dcNS, "title", PropVal.alt [("x-default", "T")])], 4⟩
      ⟨none, some "T", none, none⟩
      = ⟨[(dcNS, "title", PropVal.alt [("x-default", "T")])], 4⟩ := by
  constructor
  · exact (C2_localized_merge.1 ⟨[], 0⟩ "dc:title" "T" "dc" "title" (by decide)
      (by decide) (by decide)).1 (Or.inl (by decide))
  · exact (C2_localized_merge.2.1 ⟨[(dcNS, "title", PropVal.alt [("x-default", "T")])], 4⟩
      "T" (by decide)).2 (by decide) (by decide)

/-- C3 as stated is false: retrieve_xmp_metadata prepends the filename, so on
an item without a packet it returns a list of length schemaFieldCount + 1
whose head is the filename -- neither of length equal to the schema's field
count nor all-empty. -/
theorem C3_counterexample :
    (retrieveXmpMetadata "img.jpg" none).length ≠ schemaFieldCount ∧
    ¬ (∀ x ∈ retrieveXmpMetadata "img.jpg" none, x = "") := by
  constructor
  · decide
  · decide

/-- C3 (amended): with no packet handle, retrieve_xmp_metadata returns the
filename followed by one empty string per schema field and never fails (it is
total); and any field whose property does not exist in the packet contributes
the empty string to the extraction output. -/
theorem C3_missing_packet :
    (∀ fn : String,
      retrieveXmpMetadata fn none = fn :: List.replicate schemaFieldCount "") ∧
    (∀ (p : Packet) (ns prop : String) (form : ValueForm),
      doesPropertyExist p ns prop = false → extractField p ns prop form = "") := by
  constructor
  · intro fn
    rfl
  · intro p ns prop form hex
    exact extractField_missing p ns prop form hex

/-- C3 witness: extraction of an asset without a packet, and of a missing
property. -/
theorem C3_missing_packet_witness :
    retrieveXmpMetadata "a.jpg" none = "a.jpg" :: List.replicate schemaFieldCount "" ∧
    extractField [] "ns" "p" ValueForm.simple = "" :=
  ⟨C3_missing_packet.1 "a.jpg",
   C3_missing_packet.2 [] "ns" "p" ValueForm.simple (by decide)⟩

/-- C4: additive array merge via merge_flickr_data on dc:subject (the only
array-shaped FLICKR_SCHEMA field) with a non-empty incoming tag collection:
every pre-merge array element stays in its original position, no element
already present (by raw string equality) is appended again, every appended
element is non-empty, and exactly one mutation is recorded per appended
element. -/
theorem C4_additive_no_duplication (st : MState) (l items : List String)
    (hl : l ≠ [])
    (hprop : lookupProp st.pkt dcNS "subject" = some (PropVal.arr items) ∨
      (lookupProp st.pkt dcNS "subject" = none ∧ items = [])) :
    ∃ newItems : List String,
      getArr (mergeFlickrData st ⟨none, none, none, some l⟩).pkt dcNS "subject"
        = items ++ newItems ∧
      (∀ x ∈ newItems, x ∉ items ∧ x ≠ "") ∧
      (mergeFlickrData st ⟨none, none, none, some l⟩).updates
        = st.updates + newItems.length := by
  rw [mergeFlickrData_only_tags, flickrStepTags_some st dcNS "subject" l hl]
  rcases hprop with hp | ⟨hp, hits⟩
  · rcases flickrArr_exists st dcNS "subject" items l.dedup hp with ⟨h1, h2⟩
    refine ⟨_, h1, ?_, h2⟩
    intro x hx
    rcases List.mem_filter.mp hx with ⟨hx2, hxne⟩
    have hmem := removeFold_mem items l.dedup (List.nodup_dedup l) x hx2
    exact ⟨hmem.2, by simpa [bne_iff_ne] using hxne⟩
  · subst hits
    rcases flickrArr_missing st dcNS "subject" l.dedup hp with ⟨h1, h2⟩
    refine ⟨_, by simpa using h1, ?_, h2⟩
    intro x hx
    rcases List.mem_filter.mp hx with ⟨hx2, hxne⟩
    exact ⟨by simp, by simpa [bne_iff_ne] using hxne⟩

/-- C4 witness: the spec's scenario, tags {"cat", "bird"} into existing array
["cat", "dog"]. -/
theorem C4_additive_no_duplication_witness :
    ∃ newItems : List String,
      getArr (mergeFlickrData ⟨[(dcNS, "subject", PropVal.arr ["cat", "dog"])], 0⟩
        ⟨none, none, none, some ["cat", "bird"]⟩).pkt dcNS "subject"
        = ["cat", "dog"] ++ newItems ∧
      (∀ x ∈ newItems, x ∉ (["cat", "dog"] : List String) ∧ x ≠ "") ∧
      (mergeFlickrData ⟨[(dcNS, "subject", PropVal.arr ["cat", "dog"])], 0⟩
        ⟨none, none, none, some ["cat", "bird"]⟩).updates = 0 + newItems.length :=
  C4_additive_no_duplication ⟨[(dcNS, "subject", PropVal.arr ["cat", "dog"])], 0⟩
    ["cat", "bird"] ["cat", "dog"] (by decide) (Or.inl (by decide))

/-- C6 as stated is false for localized fields: in a packet whose dc:title
holds an "en-US" alternative "A" and an "x-default" alternative "B", merging
"C" via merge_csv_data succeeds (one mutation, x-default becomes "C"), but
extraction reads with generic "en" / specific "en-US" and returns the
shadowing "en-US" alternative "A", not the merged value "C". -/
theorem C6_counterexample :
    (mergeCsvData ⟨[(dcNS, "title", PropVal.alt [("en-US", "A"), ("x-default", "B")])], 0⟩
      [("dc:title", "C")]).updates = 1 ∧
    extractField (mergeCsvData
      ⟨[(dcNS, "title", PropVal.alt [("en-US", "A"), ("x-default", "B")])], 0⟩
      [("dc:title", "C")]).pkt dcNS "title" ValueForm.alternative = "A" ∧
    ("A" : String) ≠ "C" := by
  refine ⟨by decide, by decide, by decide⟩

/-- C6 (amended): extracting a schema field immediately after a
merge_from_tabular_row merge of that field yields the merged value for simple
fields unconditionally, and for localized fields provided no pre-merge
alternative of the property has language "en-US", "en", or a language
extending "en" (such an alternative shadows the ("en", "en-US") read used by
extraction); extracting an array field yields the ", "-join of the merged
array's elements in their array order. -/
theorem C6_roundtrip :
    (∀ (st : MState) (k v pfx prop : String),
      pySplit k ':' = [pfx, prop] → schemaLookup pfx prop = some ValueForm.simple →
      v ≠ "" →
      extractField (mergeCsvData st [(k, v)]).pkt (nsForPfx pfx) prop
        ValueForm.simple = v) ∧
    (∀ (st : MState) (k v pfx prop : String),
      pySplit k ':' = [pfx, prop] →
      schemaLookup pfx prop = some ValueForm.alternative → v ≠ "" →
      noEnAlt (getAltItems st.pkt (nsForPfx pfx) prop) →
      extractField (mergeCsvData st [(k, v)]).pkt (nsForPfx pfx) prop
        ValueForm.alternative = v) ∧
    (∀ (st : MState) (k v pfx prop : String) (form : ValueForm),
      pySplit k ':' = [pfx, prop] → schemaLookup pfx prop = some form →
      (form = ValueForm.ordered ∨ form = ValueForm.unordered) → v ≠ "" →
      extractField (mergeCsvData st [(k, v)]).pkt (nsForPfx pfx) prop form
        = String.intercalate ", "
            (getArr (mergeCsvData st [(k, v)]).pkt (nsForPfx pfx) prop)) := by
  refine ⟨?_, ?_, ?_⟩
  · intro st k v pfx prop hk hf hv
    rw [mergeCsvData_singleton, mergeCsvEntry_valid st k v pfx prop _ hv hk hf]
    by_cases hex : doesPropertyExist st.pkt (nsForPfx pfx) prop = true
    · by_cases hval : getProperty st.pkt (nsForPfx pfx) prop = v
      · rw [csvSimple_skip st pfx prop v hex hval, extractField_simple _ _ _ hex, hval]
      · rw [csvSimple_write st pfx prop v (Or.inr hval)]
        dsimp only
        have hex2 : doesPropertyExist (setProperty st.pkt (nsForPfx pfx) prop v)
            (nsForPfx pfx) prop = true := by
          simp [setProperty, doesPropertyExist, lookup_setEntry_self]
        rw [extractField_simple _ _ _ hex2]
        simp [getProperty, setProperty, lookup_setEntry_self]
    · have hex0 : doesPropertyExist st.pkt (nsForPfx pfx) prop = false := by
        cases hb : doesPropertyExist st.pkt (nsForPfx pfx) prop with
        | false => rfl
        | true => exact absurd hb hex
      rw [csvSimple_write st pfx prop v (Or.inl hex0)]
      dsimp only
      have hex2 : doesPropertyExist (setProperty st.pkt (nsForPfx pfx) prop v)
          (nsForPfx pfx) prop = true := by
        simp [setProperty, doesPropertyExist, lookup_setEntry_self]
      rw [extractField_simple _ _ _ hex2]
      simp [getProperty, setProperty, lookup_setEntry_self]
  · intro st k v pfx prop hk hf hv hno
    rw [mergeCsvData_singleton, mergeCsvEntry_valid st k v pfx prop _ hv hk hf]
    by_cases hex : doesPropertyExist st.pkt (nsForPfx pfx) prop = true
    · by_cases hval : getLocalizedText st.pkt (nsForPfx pfx) prop "en" "x-default" = v
      · rw [csvAlt_skip st pfx prop v hex hval, extractField_alt _ _ _ hex,
          getLoc_enUS_eq_xdefault _ _ _ hno, hval]
      · rw [csvAlt_write st pfx prop v (Or.inr hval)]
        dsimp only
        rw [extractField_alt _ _ _ (exists_setLocalized _ _ _ _ _ _)]
        exact getLoc_enUS_after_set st.pkt (nsForPfx pfx) prop v hno
    · have hex0 : doesPropertyExist st.pkt (nsForPfx pfx) prop = false := by
        cases hb : doesPropertyExist st.pkt (nsForPfx pfx) prop with
        | false => rfl
        | true => exact absurd hb hex
      rw [csvAlt_write st pfx prop v (Or.inl hex0)]
      dsimp only
      rw [extractField_alt _ _ _ (exists_setLocalized _ _ _ _ _ _)]
      exact getLoc_enUS_after_set st.pkt (nsForPfx pfx) prop v hno
  · intro st k v pfx prop form hk hf hform hv
    rw [mergeCsvData_singleton, mergeCsvEntry_valid st k v pfx prop _ hv hk hf]
    rcases csvArr_result st pfx prop v form hform with ⟨h1, _, h3⟩
    rw [extractField_arr _ _ _ _ form hform h3, h1]

/-- C6 witness: round trips for a simple field, a localized field and an
array field merged into an empty packet. -/
theorem C6_roundtrip_witness :
    extractField (mergeCsvData ⟨[], 0⟩ [("xmp:Label", "keep")]).pkt (nsForPfx "xmp")
      "Label" ValueForm.simple = "keep" ∧
    extractField (mergeCsvData ⟨[], 0⟩ [("dc:title", "T")]).pkt (nsForPfx "dc")
      "title" ValueForm.alternative = "T" ∧
    extractField (mergeCsvData ⟨[], 0⟩ [("dc:creator", "a, b")]).pkt (nsForPfx "dc")
      "creator" ValueForm.ordered
      = String.intercalate ", "
          (getArr (mergeCsvData ⟨[], 0⟩ [("dc:creator", "a, b")]).pkt (nsForPfx "dc")
            "creator") := by
  refine ⟨?_, ?_, ?_⟩
  · exact C6_roundtrip.1 ⟨[], 0⟩ "xmp:Label" "keep" "xmp" "Label" (by decide)
      (by decide) (by decide)
  · exact C6_roundtrip.2.1 ⟨[], 0⟩ "dc:title" "T" "dc" "title" (by decide) (by decide)
      (by decide) (by intro it hit; exact absurd hit (List.not_mem_nil it))
  · exact C6_roundtrip.2.2 ⟨[], 0⟩ "dc:creator" "a, b" "dc" "creator"
      ValueForm.ordered (by decide) (by decide) (Or.inl rfl) (by decide)

end XMPTool
